import Mathlib

set_option maxRecDepth 8000

/-!
Shallow embedding of the giza docs-tools core:
`giza/content/post/latex.py` (`_render_tex_into_pdf`, `pdf_tasks`) and
`giza/content/assets.py` (`assets_setup`).

External effects (subprocess exit statuses, filesystem existence, the
process environment, logging, `copy_if_needed`, task registration on a
BuildApp) are made explicit: exit statuses are an oracle `Nat → Int`,
the environment variable is threaded in and out, and each group of the
task graph is a list of unit records mirroring the attributes the code
sets on each task.
-/

namespace Giza

/-- Python `os.path.join` restricted to the two-component POSIX form the
code uses: the right component replaces everything when absolute,
otherwise it is appended with a single separator. -/
def osPathJoin (a b : String) : String :=
  if b.data.head? = some '/' then b
  else if a.data = [] ∨ a.data.getLast? = some '/' then a ++ b
  else a ++ "/" ++ b

/-- Index of the last occurrence of a character in a character list. -/
def rfindIdxAux (c : Char) : List Char → Nat → Option Nat → Option Nat
  | [], _, acc => acc
  | d :: rest, i, acc => rfindIdxAux c rest (i + 1) (if d = c then some i else acc)

/-- Index of the last occurrence of a character, if any (Python `str.rfind`). -/
def rfindIdx (cs : List Char) (c : Char) : Option Nat :=
  rfindIdxAux c cs 0 none

/-- Python `os.path.split` for POSIX paths: everything up to and including
the final slash is the raw head, the rest is the tail; the head is
stripped of trailing slashes unless it consists only of slashes. -/
def osPathSplit (p : String) : String × String :=
  let cs := p.data
  let i := match rfindIdx cs '/' with
    | none => 0
    | some k => k + 1
  let headRaw := cs.take i
  let tail := cs.drop i
  let head :=
    if headRaw ≠ [] ∧ headRaw.any (fun c => c ≠ '/') then
      (headRaw.reverse.dropWhile (fun c => c = '/')).reverse
    else headRaw
  (⟨head⟩, ⟨tail⟩)

/-- Python `os.path.basename` for POSIX paths. -/
def osBasename (p : String) : String :=
  (osPathSplit p).2

/-- The root part of Python `os.path.splitext` for POSIX paths: the text
before the final dot of the last component, unless that component starts
with nothing but dots up to it. -/
def splitextRoot (p : String) : String :=
  let cs := p.data
  match rfindIdx cs '.' with
  | none => p
  | some dot =>
    let sepi : Int := match rfindIdx cs '/' with
      | none => -1
      | some s => (s : Int)
    if sepi < (dot : Int) then
      let fstart := (sepi + 1).toNat
      if ((cs.drop fstart).take (dot - fstart)).any (fun c => c ≠ '.') then
        ⟨cs.take dot⟩
      else p
    else p

/-- Python `s[:-n]`: drop the last `n` characters (empty if `n` exceeds
the length). -/
def pySliceDropRight (s : String) (n : Nat) : String :=
  ⟨s.data.take (s.data.length - n)⟩

/-- Python `str.replace` on character lists, fuelled so that the
recursion is structural: replace every non-overlapping occurrence of
`old`, scanning left to right.  The fuel is the length of the scanned
text, which suffices because each step consumes at least one character;
`old` is nonempty at every call site. -/
def pyReplaceAux (old new : List Char) : Nat → List Char → List Char
  | 0, s => s
  | _ + 1, [] => []
  | fuel + 1, c :: rest =>
    if old.isPrefixOf (c :: rest) then
      new ++ pyReplaceAux old new fuel (rest.drop (old.length - 1))
    else
      c :: pyReplaceAux old new fuel rest

/-- Python `str.replace`. -/
def pyReplace (s old new : String) : String :=
  ⟨pyReplaceAux old.data new.data s.data.length s.data⟩

/-- Boolean string-suffix test. -/
def strEndsWith (s suffix : String) : Bool :=
  suffix.data.isSuffixOf s.data

/-! ## `_render_tex_into_pdf` -/

/-- The value a Python function call evaluates to here: the bare
`return` / falling off the end (`None`), or `return False`. -/
inductive PyRet where
  | noneRet
  | falseRet
deriving DecidableEq, Repr

/-- A logging call, tagged with its severity. -/
inductive LogEvent where
  | info (msg : String)
  | warning (msg : String)
  | error (msg : String)
deriving DecidableEq, Repr

/-- Source line 66: the per-step success message. -/
def infoStageMsg (idx total : Nat) (base_fn : String) (r : Int) : String :=
  "pdf completed rendering stage " ++ toString idx ++ " of " ++ toString total ++
    " successfully (" ++ base_fn ++ ", " ++ toString r ++ ")."

/-- Source line 70: the tolerated-early-failure warning. -/
def warnEarlyMsg (base_fn : String) : String :=
  "pdf build encountered error early on " ++ base_fn ++ ", continuing cautiously."

/-- Source line 73: the fatal-step error message. -/
def fatalMsg (base_fn : String) : String :=
  "pdf build encountered error running pdflatex, investigate on " ++ base_fn ++ ". terminating"

/-- Source line 46: the unsupported-output-format error message. -/
def unsupportedFormatMsg (output_format : String) : String :=
  "not rendering pdf because " ++ output_format ++ " is not an output format"

/-- The `pdflatex` invocation chosen by the `if`/`elif`/`else` at the top
of `_render_tex_into_pdf`; `none` for an unsupported output format. -/
def pdflatexCmd (output_format path fn : String) : Option String :=
  if output_format = "dvi" then
    some ("pdflatex --output-format dvi --interaction batchmode --output-directory " ++
      path ++ " " ++ fn)
  else if output_format = "pdf" then
    some ("pdflatex --interaction batchmode --output-directory " ++ path ++ " " ++ fn)
  else none

/-- The `cmds` list built by `_render_tex_into_pdf` (empty for an
unsupported output format, where the code returns before building it). -/
def texCmds (output_format path fn : String) : List String :=
  match pdflatexCmd output_format path fn with
  | none => []
  | some pdflatex =>
    let base_fn := osBasename fn
    let cmds := [pdflatex,
                 "makeindex -s " ++ path ++ "/python.ist " ++ path ++ "/" ++
                   pySliceDropRight base_fn 4 ++ ".idx ",
                 pdflatex,
                 pdflatex]
    if output_format = "dvi" then
      cmds ++ ["cd " ++ path ++ "; dvipdf " ++ pySliceDropRight base_fn 4 ++ ".dvi"]
    else cmds

/-- What the `for idx, cmd in enumerate(cmds)` loop produced: the
commands actually handed to `subprocess.call`, the log calls, and
whether the loop aborted via `return False`. -/
structure LoopOut where
  run : List String
  logs : List LogEvent
  aborted : Bool
deriving DecidableEq, Repr

/-- The command loop of `_render_tex_into_pdf`: a zero status logs info
and continues; a non-zero status at `idx <= 1` logs a warning and
continues; a non-zero status later logs two errors and returns `False`. -/
def renderLoop (exits : Nat → Int) (base_fn : String) (total : Nat) :
    Nat → List String → LoopOut
  | _, [] => { run := [], logs := [], aborted := false }
  | idx, cmd :: rest =>
    let r := exits idx
    if r = 0 then
      let out := renderLoop exits base_fn total (idx + 1) rest
      { run := cmd :: out.run,
        logs := LogEvent.info (infoStageMsg idx total base_fn r) :: out.logs,
        aborted := out.aborted }
    else if idx ≤ 1 then
      let out := renderLoop exits base_fn total (idx + 1) rest
      { run := cmd :: out.run,
        logs := LogEvent.warning (warnEarlyMsg base_fn) :: out.logs,
        aborted := out.aborted }
    else
      { run := [cmd],
        logs := [LogEvent.error (fatalMsg base_fn), LogEvent.error cmd],
        aborted := true }

/-- Everything observable about one call of `_render_tex_into_pdf`:
its return value, the commands executed, the log calls, the
`copy_if_needed` calls, and the value of the TEXINPUTS environment variable
after the call returns. -/
structure RenderOutcome where
  ret : PyRet
  cmdsRun : List String
  logs : List LogEvent
  copies : List (String × String)
  texinputs : Option String
deriving DecidableEq, Repr

/-- `_render_tex_into_pdf(fn, deployed_path, path, output_format)`.
`exits` gives the exit status of the `idx`-th `subprocess.call`;
`_envBefore` is the value of the TEXINPUTS environment variable before the call
(the code overwrites it unconditionally on its first line). -/
def render_tex_into_pdf (fn deployed_path path output_format : String)
    (exits : Nat → Int) (_envBefore : Option String) : RenderOutcome :=
  let texinputs := ".:" ++ path ++ ":"
  match pdflatexCmd output_format path fn with
  | none =>
    { ret := PyRet.noneRet, cmdsRun := [],
      logs := [LogEvent.error (unsupportedFormatMsg output_format)],
      copies := [], texinputs := some texinputs }
  | some _ =>
    let base_fn := osBasename fn
    let cmds := texCmds output_format path fn
    let out := renderLoop exits base_fn cmds.length 0 cmds
    if out.aborted then
      { ret := PyRet.falseRet, cmdsRun := out.run, logs := out.logs,
        copies := [], texinputs := some texinputs }
    else
      let pdf_fn := splitextRoot fn ++ ".pdf"
      { ret := PyRet.noneRet, cmdsRun := out.run, logs := out.logs,
        copies := [(pdf_fn, deployed_path)], texinputs := some texinputs }

/-! ## `assets_setup` -/

/-- The single git action `assets_setup` performs: `GitRepo(path).pull`
when the path exists, else `GitRepo(base).clone(repo, repo_path, branch)`
after splitting the path. -/
inductive SyncAction where
  | pull (path branch : String)
  | clone (base repo repo_path branch : String)
deriving DecidableEq, Repr

/-- Whether a sync action is the update-in-place (pull) variant. -/
def SyncAction.isPull : SyncAction → Bool
  | .pull _ _ => true
  | .clone _ _ _ _ => false

/-- Observable outcome of `assets_setup`: the git action taken and the
info log emitted. -/
structure SyncOutcome where
  action : SyncAction
  log : String
deriving DecidableEq, Repr

/-- `assets_setup(path, branch, repo)`; `pathExists` is the result of
`os.path.exists(path)`. -/
def assets_setup (path branch repo : String) (pathExists : Bool) : SyncOutcome :=
  if pathExists then
    { action := SyncAction.pull path branch,
      log := "updated " ++ path ++ " repository" }
  else
    let bn := osPathSplit path
    { action := SyncAction.clone bn.1 repo bn.2 branch,
      log := "cloned " ++ branch ++ " branch from repo " ++ repo }

/-! ## `pdf_tasks` -/

/-- One entry of `conf.system.files.data.pdfs`, restricted to the fields
the function reads. -/
structure PdfEntry where
  output : String
  tag : String
deriving DecidableEq, Repr

/-- A `process_page` registration: its file arguments, regex list
(pattern/replacement pairs as text), builder label and copy policy.
`forArtifact` records which pdfs entry the unit was emitted for
(`none` for the one-off `sphinx.sty` unit). -/
structure ProcessUnit where
  fn : String
  output_fn : String
  regexes : List (String × String)
  builder : String
  copy : String
  forArtifact : Option PdfEntry
deriving DecidableEq, Repr

/-- A task added to `render_app`, with the attributes the code sets. -/
structure RenderUnit where
  dependency : Option String
  target : String
  args : String × String × String × String
  forArtifact : PdfEntry
deriving DecidableEq, Repr

/-- A task added to `link_app`, with the attributes the code sets. -/
structure LinkUnit where
  dependency : String
  target : String
  args : String × String
  forArtifact : PdfEntry
deriving DecidableEq, Repr

/-- A generic task record for groups the code never populates. -/
structure GenericTask where
  job : String
  args : List String
deriving DecidableEq, Repr

/-- The four stage groups `pdf_tasks` creates on the BuildApp, in
creation order: process (transform), render, migrate (deploy), link. -/
structure PdfTaskGraph where
  process : List ProcessUnit
  render : List RenderUnit
  migrate : List GenericTask
  link : List LinkUnit
deriving DecidableEq, Repr

/-- The slice of `conf.project` that `pdf_tasks` reads; `edition` is
`none` when the edition key test on conf.project is false. -/
structure ProjectConf where
  name : String
  edition : Option String
  url : String
  tag : String
deriving DecidableEq, Repr

/-- The slice of `conf.paths` that `pdf_tasks` reads. -/
structure PathsConf where
  projectroot : String
  branch_output : String
  public_site_output : String
deriving DecidableEq, Repr

/-- The slice of `conf` that `pdf_tasks` reads; `pdfs` is `none` when
the pdfs key is absent from conf.system.files.data. -/
structure Conf where
  project : ProjectConf
  paths : PathsConf
  current_branch : String
  pdfs : Option (List PdfEntry)
deriving DecidableEq, Repr

/-- The slice of `sconf` that `pdf_tasks` reads; `tags` is `none` when
the tags key is absent from sconf. -/
structure Sconf where
  builder : String
  tags : Option (List String)
deriving DecidableEq, Repr

/-- The `tex_regexes` substitution table (patterns and replacements kept
as their literal text). -/
def tex_regexes (conf : Conf) : List (String × String) :=
  [ ("(index|bfcode)\\\x7b(.*)--(.*)\\\x7d", "\\1\\\x7b\\2-\\\x7b-\\\x7d\\3\\\x7d"),
    ("\\\\PYGZsq\x7b\x7d", "\x27"),
    ("\\\\code\\\x7b/(?!.*\x7b\x7d/|etc|usr|data|var|srv|data|bin|dev|opt|proc|24|private)",
     "\\code\x7b" ++ conf.project.url ++ "/" ++ conf.project.tag ++ "/") ]

/-- The `latex_dir` computation: edition-qualified when an edition is
declared and differs from the project name. -/
def latexDir (sconf : Sconf) (conf : Conf) : String :=
  match conf.project.edition with
  | some ed =>
    if ed ≠ conf.project.name then
      osPathJoin (osPathJoin conf.paths.projectroot conf.paths.branch_output)
        (sconf.builder ++ "-" ++ ed)
    else
      osPathJoin (osPathJoin conf.paths.projectroot conf.paths.branch_output) sconf.builder
  | none =>
    osPathJoin (osPathJoin conf.paths.projectroot conf.paths.branch_output) sconf.builder

/-- The `deploy_path` computation. -/
def deployPath (conf : Conf) : String :=
  osPathJoin conf.paths.projectroot conf.paths.public_site_output

/-- Whether sconf has a tags entry that contains the offset marker. -/
def hasOffset (sconf : Sconf) : Bool :=
  match sconf.tags with
  | some ts => ts.contains "offset"
  | none => false

/-- The one-off `sphinx.sty` transform unit registered in the offset
case: same input and output file, the `graphicx` option-removal regex,
builder `sphinx-latex`, copy policy `ifNeeded`. -/
def styProcessUnit (latex_dir : String) : ProcessUnit :=
  let sty_file := osPathJoin latex_dir "sphinx.sty"
  { fn := sty_file, output_fn := sty_file,
    regexes := [("\\\\usepackage\\[pdftex\\]\\\x7bgraphicx\\\x7d",
                 "\\usepackage\x7bgraphicx\x7d")],
    builder := "sphinx-latex", copy := "ifNeeded", forArtifact := none }

/-- The per-artifact derived names and paths computed inside the loop of
`pdf_tasks`. -/
structure DerivedPaths where
  tagged_name : String
  deploy_fn : String
  link_name : String
  source : String
  processed : String
  pdf : String
  deployed : String
  link : String
deriving DecidableEq, Repr

/-- Derivation of the per-artifact paths from the output name of the entry
and tag, the current branch, and the two base directories. -/
def derivePaths (conf : Conf) (latex_dir deploy_path : String) (i : PdfEntry) : DerivedPaths :=
  let tagged_name := pySliceDropRight i.output 4 ++ "-" ++ i.tag
  let deploy_fn := tagged_name ++ "-" ++ conf.current_branch ++ ".pdf"
  let link_name := pyReplace deploy_fn ("-" ++ conf.current_branch) ""
  { tagged_name := tagged_name
    deploy_fn := deploy_fn
    link_name := link_name
    source := osPathJoin latex_dir i.output
    processed := osPathJoin latex_dir (tagged_name ++ ".tex")
    pdf := osPathJoin latex_dir (tagged_name ++ ".pdf")
    deployed := osPathJoin deploy_path deploy_fn
    link := osPathJoin deploy_path link_name }

/-- The per-artifact `process_page` registration (`tex-munge`). -/
def artifactProcessUnit (conf : Conf) (latex_dir deploy_path : String)
    (i : PdfEntry) : ProcessUnit :=
  let d := derivePaths conf latex_dir deploy_path i
  { fn := d.source, output_fn := d.processed, regexes := tex_regexes conf,
    builder := "tex-munge", copy := "ifNeeded", forArtifact := some i }

/-- The per-artifact render task: no dependency, target is the rendered
pdf path, args as passed to `_render_tex_into_pdf`. -/
def artifactRenderUnit (conf : Conf) (latex_dir deploy_path output_format : String)
    (i : PdfEntry) : RenderUnit :=
  let d := derivePaths conf latex_dir deploy_path i
  { dependency := none, target := d.pdf,
    args := (d.processed, d.deployed, latex_dir, output_format),
    forArtifact := i }

/-- The per-artifact link tasks: one task when the link path differs
from the deployed path, none otherwise. -/
def artifactLinkUnits (conf : Conf) (latex_dir deploy_path : String)
    (i : PdfEntry) : List LinkUnit :=
  let d := derivePaths conf latex_dir deploy_path i
  if d.link ≠ d.deployed then
    [{ dependency := d.deployed, target := d.link,
       args := (d.deploy_fn, d.link), forArtifact := i }]
  else []

/-- `pdf_tasks(sconf, conf, app)`: returns the four stage groups built
on the BuildApp.  `editionCheck` is the external `edition_check`
predicate applied to each pdfs entry. -/
def pdf_tasks (sconf : Sconf) (conf : Conf) (editionCheck : PdfEntry → Bool) : PdfTaskGraph :=
  match conf.pdfs with
  | none => { process := [], render := [], migrate := [], link := [] }
  | some pdfs =>
    let latex_dir := latexDir sconf conf
    let deploy_path := deployPath conf
    let output_format := if hasOffset sconf then "dvi" else "pdf"
    let preamble := if hasOffset sconf then [styProcessUnit latex_dir] else []
    let arts := pdfs.filter (fun i => editionCheck i)
    { process := preamble ++ arts.map (artifactProcessUnit conf latex_dir deploy_path),
      render := arts.map (artifactRenderUnit conf latex_dir deploy_path output_format),
      migrate := [],
      link := arts.flatMap (artifactLinkUnits conf latex_dir deploy_path) }

/-- The derived paths of an artifact as `pdf_tasks` computes them. -/
def artifactDerived (sconf : Sconf) (conf : Conf) (i : PdfEntry) : DerivedPaths :=
  derivePaths conf (latexDir sconf conf) (deployPath conf) i

/-- Number of link tasks emitted for a given pdfs entry. -/
def linkUnitCount (g : PdfTaskGraph) (A : PdfEntry) : Nat :=
  g.link.countP (fun u => u.forArtifact == A)

/-- The pdfs entry of the end-to-end scenario in the spec. -/
def manualEntry : PdfEntry :=
  { output := "manual.tex", tag := "v1" }

/-- A concrete configuration for the end-to-end scenario: branch
`release`, one pdfs entry, no edition. -/
def scenarioConf : Conf :=
  { project := { name := "proj", edition := none,
                 url := "http://docs.example.com", tag := "t" },
    paths := { projectroot := "/proj", branch_output := "build/release/latex",
               public_site_output := "build/public" },
    current_branch := "release",
    pdfs := some [manualEntry] }

/-- A concrete sconf without an offset tag. -/
def scenarioSconf : Sconf :=
  { builder := "latex", tags := none }

/-- A concrete sconf carrying the offset tag. -/
def offsetSconf : Sconf :=
  { builder := "latex", tags := some ["offset"] }


/-! ## Theorems -/

/-- When every step at 0-indexed position 2 or later exits with status
zero, the loop runs every command, does not abort, and every step that
failed (necessarily an early one) logged the tolerant warning. -/
theorem renderLoop_no_fatal (exits : Nat → Int) (b : String) (t : Nat) :
    ∀ (l : List String) (idx : Nat),
      (∀ j, idx ≤ j → j < idx + l.length → 2 ≤ j → exits j = 0) →
      (renderLoop exits b t idx l).run = l ∧
      (renderLoop exits b t idx l).aborted = false ∧
      (∀ j, idx ≤ j → j < idx + l.length → exits j ≠ 0 →
        LogEvent.warning (warnEarlyMsg b) ∈ (renderLoop exits b t idx l).logs) := by
  intro l
  induction l with
  | nil =>
    intro idx _
    refine ⟨rfl, rfl, ?_⟩
    intro j hj1 hj2 _
    simp only [List.length_nil, Nat.add_zero] at hj2
    omega
  | cons c rest ih =>
    intro idx h
    have hrest : ∀ j, idx + 1 ≤ j → j < idx + 1 + rest.length → 2 ≤ j → exits j = 0 := by
      intro j hj1 hj2 hj3
      exact h j (by omega) (by simp only [List.length_cons]; omega) hj3
    obtain ⟨hrun, hab, hwarn⟩ := ih (idx + 1) hrest
    by_cases h0 : exits idx = 0
    · refine ⟨?_, ?_, ?_⟩
      · simp [renderLoop, h0, hrun]
      · simp [renderLoop, h0, hab]
      · intro j hj1 hj2 hjne
        rcases Nat.eq_or_lt_of_le hj1 with heq | hlt
        · exact absurd h0 (heq ▸ hjne)
        · have hm := hwarn j (by omega)
            (by simp only [List.length_cons] at hj2; omega) hjne
          simp only [renderLoop, h0, if_pos]
          simp only [List.mem_cons]
          exact Or.inr hm
    · by_cases hi : idx ≤ 1
      · refine ⟨?_, ?_, ?_⟩
        · simp [renderLoop, h0, hi, hrun]
        · simp [renderLoop, h0, hi, hab]
        · intro j hj1 hj2 hjne
          simp [renderLoop, h0, hi]
      · exfalso
        exact h0 (h idx le_rfl (by simp only [List.length_cons]; omega) (by omega))

/-- When the first failing step at 0-indexed position 2 or later is at
position `k`, the loop aborts, has run exactly the commands up to and
including position `k`, and logged the fatal error. -/
theorem renderLoop_first_fatal (exits : Nat → Int) (b : String) (t : Nat) :
    ∀ (l : List String) (idx k : Nat),
      idx ≤ k → k < idx + l.length → 2 ≤ k → exits k ≠ 0 →
      (∀ j, idx ≤ j → j < k → 2 ≤ j → exits j = 0) →
      (renderLoop exits b t idx l).aborted = true ∧
      (renderLoop exits b t idx l).run = l.take (k - idx + 1) ∧
      LogEvent.error (fatalMsg b) ∈ (renderLoop exits b t idx l).logs := by
  intro l
  induction l with
  | nil =>
    intro idx k hik hk
    simp only [List.length_nil, Nat.add_zero] at hk
    omega
  | cons c rest ih =>
    intro idx k hik hk h2k hkne hprev
    rcases Nat.eq_or_lt_of_le hik with heq | hlt
    · subst heq
      have hi : ¬ (idx ≤ 1) := by omega
      refine ⟨?_, ?_, ?_⟩
      · simp [renderLoop, hkne, hi]
      · simp [renderLoop, hkne, hi]
      · simp [renderLoop, hkne, hi]
    · have hbnd : k < idx + 1 + rest.length := by
        simp only [List.length_cons] at hk; omega
      have hprev' : ∀ j, idx + 1 ≤ j → j < k → 2 ≤ j → exits j = 0 := by
        intro j a bb cc; exact hprev j (by omega) bb cc
      obtain ⟨hab, hrun, hmem⟩ := ih (idx + 1) k (by omega) hbnd h2k hkne hprev'
      have htake : k - idx + 1 = (k - (idx + 1) + 1) + 1 := by omega
      by_cases h0 : exits idx = 0
      · refine ⟨?_, ?_, ?_⟩
        · simp [renderLoop, h0, hab]
        · simp only [renderLoop, h0, if_pos]
          rw [htake, List.take_succ_cons, hrun]
        · simp only [renderLoop, h0, if_pos, List.mem_cons]
          exact Or.inr hmem
      · have hi : idx ≤ 1 := by
          by_contra hcc
          exact h0 (hprev idx le_rfl hlt (by omega))
        refine ⟨?_, ?_, ?_⟩
        · simp [renderLoop, h0, hi, hab]
        · rw [htake, List.take_succ_cons]
          simp [renderLoop, h0, hi, hrun]
        · simp [renderLoop, h0, hi, hmem]

/-- For a supported output format, the outcome of the render call is the
loop outcome, with the copy to the deployed path exactly when the loop
did not abort. -/
theorem render_valid (fn dp path fmt : String) (exits : Nat → Int) (env : Option String)
    (P : String) (hP : pdflatexCmd fmt path fn = some P) :
    render_tex_into_pdf fn dp path fmt exits env =
      (if (renderLoop exits (osBasename fn) (texCmds fmt path fn).length 0
            (texCmds fmt path fn)).aborted then
        { ret := PyRet.falseRet,
          cmdsRun := (renderLoop exits (osBasename fn) (texCmds fmt path fn).length 0
            (texCmds fmt path fn)).run,
          logs := (renderLoop exits (osBasename fn) (texCmds fmt path fn).length 0
            (texCmds fmt path fn)).logs,
          copies := [], texinputs := some (".:" ++ path ++ ":") }
      else
        { ret := PyRet.noneRet,
          cmdsRun := (renderLoop exits (osBasename fn) (texCmds fmt path fn).length 0
            (texCmds fmt path fn)).run,
          logs := (renderLoop exits (osBasename fn) (texCmds fmt path fn).length 0
            (texCmds fmt path fn)).logs,
          copies := [(splitextRoot fn ++ ".pdf", dp)],
          texinputs := some (".:" ++ path ++ ":") }) := by
  unfold render_tex_into_pdf
  rw [hP]

/-- Claim C1: in `_render_tex_into_pdf`, for every executed command
sequence, a non-zero exit status at 1-indexed position 1 or 2 is logged
as a warning and the sequence continues with the subsequent steps, while
a non-zero exit status at 1-indexed position 3 or later aborts the
sequence immediately, the call returns `False`, and no copy to the
deployed path is attempted. -/
theorem render_step_severity (fn dp path fmt : String) (exits : Nat → Int)
    (env : Option String) (hfmt : fmt = "pdf" ∨ fmt = "dvi") :
    ((∀ j, 3 ≤ j → j ≤ (texCmds fmt path fn).length → exits (j - 1) = 0) →
      (render_tex_into_pdf fn dp path fmt exits env).cmdsRun = texCmds fmt path fn ∧
      (render_tex_into_pdf fn dp path fmt exits env).ret = PyRet.noneRet ∧
      (render_tex_into_pdf fn dp path fmt exits env).copies =
        [(splitextRoot fn ++ ".pdf", dp)] ∧
      (∀ p, (p = 1 ∨ p = 2) → exits (p - 1) ≠ 0 →
        LogEvent.warning (warnEarlyMsg (osBasename fn)) ∈
          (render_tex_into_pdf fn dp path fmt exits env).logs)) ∧
    (∀ k, 3 ≤ k → k ≤ (texCmds fmt path fn).length → exits (k - 1) ≠ 0 →
      (∀ j, 3 ≤ j → j < k → exits (j - 1) = 0) →
      (render_tex_into_pdf fn dp path fmt exits env).ret = PyRet.falseRet ∧
      (render_tex_into_pdf fn dp path fmt exits env).copies = [] ∧
      (render_tex_into_pdf fn dp path fmt exits env).cmdsRun =
        (texCmds fmt path fn).take k) := by
  obtain ⟨P, hP⟩ : ∃ P, pdflatexCmd fmt path fn = some P := by
    rcases hfmt with rfl | rfl
    · exact ⟨_, rfl⟩
    · exact ⟨_, rfl⟩
  rw [render_valid fn dp path fmt exits env P hP]
  constructor
  · intro ha
    have ha0 : ∀ j, 0 ≤ j → j < 0 + (texCmds fmt path fn).length → 2 ≤ j → exits j = 0 := by
      intro j _ hlt h2
      have h := ha (j + 1) (by omega) (by omega)
      have hj : j + 1 - 1 = j := by omega
      rwa [hj] at h
    obtain ⟨hrun, hab, hwarn⟩ :=
      renderLoop_no_fatal exits (osBasename fn) (texCmds fmt path fn).length
        (texCmds fmt path fn) 0 ha0
    rw [hab]
    have hlen : (texCmds fmt path fn).length = 4 ∨ (texCmds fmt path fn).length = 5 := by
      rcases hfmt with rfl | rfl
      · exact Or.inl rfl
      · exact Or.inr rfl
    refine ⟨by simp [hrun], by simp, by simp, ?_⟩
    intro p hp hpne
    have hw := hwarn (p - 1) (by omega) (by omega) hpne
    simpa using hw
  · intro k h3k hklen hkne hprev
    have hprev0 : ∀ j, 0 ≤ j → j < k - 1 → 2 ≤ j → exits j = 0 := by
      intro j _ hlt h2
      have h := hprev (j + 1) (by omega) (by omega)
      have hj : j + 1 - 1 = j := by omega
      rwa [hj] at h
    obtain ⟨hab, hrun, _⟩ :=
      renderLoop_first_fatal exits (osBasename fn) (texCmds fmt path fn).length
        (texCmds fmt path fn) 0 (k - 1) (by omega) (by omega) (by omega) hkne hprev0
    rw [hab]
    have hk1 : k - 1 - 0 + 1 = k := by omega
    rw [hk1] at hrun
    exact ⟨by simp, by simp, by simp [hrun]⟩

/-- Witness for C1: with a failure only at position 1 the pdf sequence
completes and the call returns `None`; with a failure at position 3 it
aborts and returns `False`. -/
theorem render_step_severity_witness :
    (render_tex_into_pdf "/w/doc.tex" "/p/doc.pdf" "/w" "pdf"
        (fun i => if i = 0 then 1 else 0) none).ret = PyRet.noneRet ∧
    (render_tex_into_pdf "/w/doc.tex" "/p/doc.pdf" "/w" "pdf"
        (fun i => if i = 2 then 1 else 0) none).ret = PyRet.falseRet := by
  constructor
  · have h := (render_step_severity "/w/doc.tex" "/p/doc.pdf" "/w" "pdf"
        (fun i => if i = 0 then 1 else 0) none (Or.inl rfl)).1 ?_
    · exact h.2.1
    · intro j h3 h4
      have hlen : (texCmds "pdf" "/w" "/w/doc.tex").length = 4 := rfl
      rw [hlen] at h4
      have : j = 3 ∨ j = 4 := by omega
      rcases this with rfl | rfl <;> decide
  · have h := (render_step_severity "/w/doc.tex" "/p/doc.pdf" "/w" "pdf"
        (fun i => if i = 2 then 1 else 0) none (Or.inl rfl)).2 3 (by omega)
        (by decide) (by decide) (by intro j a b; omega)
    exact h.1

/-- Counterexample to claim C2 as stated: for the pdf output format the
command sequence does not have length 3 (it has length 4: pdflatex,
makeindex, pdflatex, pdflatex). -/
theorem texCmds_pdf_length_ne_three :
    ¬ ((texCmds "pdf" "/tmp/build" "manual-v1.tex").length = 3) := by
  decide

/-- Claim C2 (amended): the fixed command sequence built by
`_render_tex_into_pdf` has length 4 for the pdf output format and
length 5 for dvi, where the extra final step is the dvipdf conversion
of the intermediate dvi file. -/
theorem texCmds_lengths (path fn : String) :
    (texCmds "pdf" path fn).length = 4 ∧ (texCmds "dvi" path fn).length = 5 ∧
    (texCmds "dvi" path fn).getLast? =
      some ("cd " ++ path ++ "; dvipdf " ++ pySliceDropRight (osBasename fn) 4 ++ ".dvi") := by
  exact ⟨rfl, rfl, rfl⟩

/-- Claim C3: for an output format other than pdf and dvi,
`_render_tex_into_pdf` logs a configuration error, runs zero external
commands, performs no copy, and returns immediately (the bare Python
return, i.e. None). -/
theorem render_unsupported_format (fn dp path fmt : String) (exits : Nat → Int)
    (env : Option String) (h1 : fmt ≠ "pdf") (h2 : fmt ≠ "dvi") :
    render_tex_into_pdf fn dp path fmt exits env =
      { ret := PyRet.noneRet, cmdsRun := [],
        logs := [LogEvent.error (unsupportedFormatMsg fmt)],
        copies := [], texinputs := some (".:" ++ path ++ ":") } := by
  have hP : pdflatexCmd fmt path fn = none := by
    simp [pdflatexCmd, h1, h2]
  unfold render_tex_into_pdf
  rw [hP]

/-- Witness for C3 at output format epub: no commands run and no copy
is performed. -/
theorem render_unsupported_format_witness :
    (render_tex_into_pdf "/w/doc.tex" "/p/doc.pdf" "/w" "epub"
      (fun _ => 0) none).cmdsRun = [] ∧
    (render_tex_into_pdf "/w/doc.tex" "/p/doc.pdf" "/w" "epub"
      (fun _ => 0) none).copies = [] := by
  have h := render_unsupported_format "/w/doc.tex" "/p/doc.pdf" "/w" "epub"
    (fun _ => 0) none (by decide) (by decide)
  rw [h]
  exact ⟨rfl, rfl⟩

/-- Counterexample to claim C6 as stated: the TEXINPUTS setting is not
scoped to the invocation.  Starting from an environment in which
TEXINPUTS is unset, after the call returns the variable is still set
(the code assigns os.environ and never restores it), so the assignment
leaks into global state observable by later invocations. -/
theorem render_texinputs_persists :
    ¬ ((render_tex_into_pdf "/w/doc.tex" "/p/doc.pdf" "/w" "pdf"
        (fun _ => 0) none).texinputs = none) := by
  decide

/-- Claim C6 (amended): every invocation of `_render_tex_into_pdf` sets
the process-global TEXINPUTS variable to `.:<path>:` and the value
remains set after the call returns, whatever it was before. -/
theorem render_texinputs_global (fn dp path fmt : String) (exits : Nat → Int)
    (env : Option String) :
    (render_tex_into_pdf fn dp path fmt exits env).texinputs =
      some (".:" ++ path ++ ":") := by
  unfold render_tex_into_pdf
  cases hP : pdflatexCmd fmt path fn with
  | none => rfl
  | some P =>
    by_cases hab : (renderLoop exits (osBasename fn) (texCmds fmt path fn).length 0
        (texCmds fmt path fn)).aborted = true
    · simp [hab]
    · simp [hab]

/-- Claim C7: `assets_setup` performs exactly one git action per call:
a pull of the branch on the local path when it exists, otherwise a
clone of the remote reference into parent/leaf of the split path at the
branch; the action is a pull precisely when the path exists. -/
theorem assets_setup_action (path branch repo : String) :
    (assets_setup path branch repo true).action = SyncAction.pull path branch ∧
    (assets_setup path branch repo false).action =
      SyncAction.clone (osPathSplit path).1 repo (osPathSplit path).2 branch ∧
    (∀ ex : Bool, ((assets_setup path branch repo ex).action).isPull = ex) := by
  refine ⟨rfl, rfl, ?_⟩
  intro ex
  cases ex <;> rfl

/-- Claim C10: the third (migrate/deploy) stage group built by
`pdf_tasks` never receives a unit of work; the copy of the rendered
artifact to the deployed path instead happens inside the render job on
full success. -/
theorem migrate_group_empty (sconf : Sconf) (conf : Conf) (check : PdfEntry → Bool) :
    (pdf_tasks sconf conf check).migrate = [] ∧
    (∀ fn dp path : String, ∀ env : Option String,
      (render_tex_into_pdf fn dp path "pdf" (fun _ => 0) env).copies =
        [(splitextRoot fn ++ ".pdf", dp)]) := by
  constructor
  · cases hp : conf.pdfs <;> simp [pdf_tasks, hp]
  · intro fn dp path env
    rfl

/-- Every link task emitted for a pdfs entry is tagged with that entry
and carries the deployed path as dependency and the link path as
target. -/
theorem artifactLinkUnits_mem (conf : Conf) (ld dp : String) (i : PdfEntry) :
    ∀ u ∈ artifactLinkUnits conf ld dp i,
      u.forArtifact = i ∧ u.dependency = (derivePaths conf ld dp i).deployed ∧
      u.target = (derivePaths conf ld dp i).link := by
  intro u hu
  simp only [artifactLinkUnits] at hu
  split at hu
  · simp only [List.mem_singleton] at hu
    subst hu
    exact ⟨rfl, rfl, rfl⟩
  · simp at hu

/-- The number of link tasks emitted for one pdfs entry is 0 or 1
according to whether the link path coincides with the deployed path. -/
theorem artifactLinkUnits_length (conf : Conf) (ld dp : String) (A : PdfEntry) :
    (artifactLinkUnits conf ld dp A).length =
      if (derivePaths conf ld dp A).link = (derivePaths conf ld dp A).deployed
      then 0 else 1 := by
  by_cases h : (derivePaths conf ld dp A).link = (derivePaths conf ld dp A).deployed
  · simp [artifactLinkUnits, h]
  · simp [artifactLinkUnits, h]

/-- Counting the link tasks of one entry that are tagged with `A`. -/
theorem countP_artifactLinkUnits (conf : Conf) (ld dp : String) (A i : PdfEntry) :
    (artifactLinkUnits conf ld dp i).countP (fun u => u.forArtifact == A) =
      if i = A then (artifactLinkUnits conf ld dp A).length else 0 := by
  by_cases h : i = A
  · subst h
    rw [if_pos rfl]
    refine List.countP_eq_length.mpr ?_
    intro u hu
    have hf := (artifactLinkUnits_mem conf ld dp i u hu).1
    simp [hf]
  · rw [if_neg h, List.countP_eq_zero]
    intro u hu
    have hf := (artifactLinkUnits_mem conf ld dp i u hu).1
    simp [hf, h]

/-- Counting the link tasks tagged with `A` over a whole entry list. -/
theorem linkCount_flatMap (conf : Conf) (ld dp : String) (A : PdfEntry)
    (l : List PdfEntry) :
    (l.flatMap (artifactLinkUnits conf ld dp)).countP (fun u => u.forArtifact == A) =
      l.count A * (artifactLinkUnits conf ld dp A).length := by
  induction l with
  | nil => simp
  | cons i t ih =>
    rw [List.flatMap_cons, List.countP_append, ih, List.count_cons,
        countP_artifactLinkUnits]
    by_cases h : i = A
    · subst h
      rw [if_pos rfl]
      have hbeq : (i == i) = true := by simp
      rw [hbeq]
      simp
      ring
    · rw [if_neg h]
      have hbeq : (i == A) = false := by simp [h]
      rw [hbeq]
      simp

/-- Claim C4: for every artifact that passes the edition filter (and
occurs once in the pdfs list), no link unit is created when the link
path equals the deployed path, and exactly one link unit is created
when they differ, with dependency the deployed path and target the link
path. -/
theorem pdf_link_units (sconf : Sconf) (conf : Conf) (check : PdfEntry → Bool)
    (pdfs : List PdfEntry) (A : PdfEntry)
    (hpdfs : conf.pdfs = some pdfs) (hcount : pdfs.count A = 1) (hA : check A = true) :
    ((artifactDerived sconf conf A).link = (artifactDerived sconf conf A).deployed →
      linkUnitCount (pdf_tasks sconf conf check) A = 0) ∧
    ((artifactDerived sconf conf A).link ≠ (artifactDerived sconf conf A).deployed →
      linkUnitCount (pdf_tasks sconf conf check) A = 1 ∧
      (∀ u ∈ (pdf_tasks sconf conf check).link, u.forArtifact = A →
        u.dependency = (artifactDerived sconf conf A).deployed ∧
        u.target = (artifactDerived sconf conf A).link)) := by
  have hlink : (pdf_tasks sconf conf check).link =
      (pdfs.filter (fun i => check i)).flatMap
        (artifactLinkUnits conf (latexDir sconf conf) (deployPath conf)) := by
    simp [pdf_tasks, hpdfs]
  have hfA : ((fun i => check i) A) = true := hA
  have hcount2 : (pdfs.filter (fun i => check i)).count A = 1 := by
    rw [List.count_filter hfA]
    exact hcount
  have hcountP : linkUnitCount (pdf_tasks sconf conf check) A =
      (artifactLinkUnits conf (latexDir sconf conf) (deployPath conf) A).length := by
    unfold linkUnitCount
    rw [hlink, linkCount_flatMap, hcount2, Nat.one_mul]
  constructor
  · intro heq
    simp only [artifactDerived] at heq
    rw [hcountP, artifactLinkUnits_length, if_pos heq]
  · intro hne
    simp only [artifactDerived] at hne
    refine ⟨?_, ?_⟩
    · rw [hcountP, artifactLinkUnits_length, if_neg hne]
    · intro u hu hfa
      rw [hlink] at hu
      obtain ⟨i, _, hui⟩ := List.mem_flatMap.mp hu
      obtain ⟨hf, hdep, htar⟩ := artifactLinkUnits_mem conf _ _ i u hui
      have hiA : i = A := by rw [hf] at hfa; exact hfa
      subst hiA
      simp only [artifactDerived]
      exact ⟨hdep, htar⟩

/-- Witness for C4: in the concrete scenario the link path differs from
the deployed path and exactly one link unit is emitted for the
artifact. -/
theorem pdf_link_units_witness :
    linkUnitCount (pdf_tasks scenarioSconf scenarioConf (fun _ => true)) manualEntry = 1 := by
  have h := (pdf_link_units scenarioSconf scenarioConf (fun _ => true) [manualEntry]
    manualEntry rfl (by decide) rfl).2 (by decide)
  exact h.1

/-- Claim C5: for the artifact with output manual.tex and tag v1 on
branch release, the processed path ends in manual-v1.tex, the deployed
path ends in manual-v1-release.pdf, the link path ends in
manual-v1.pdf, the link path differs from the deployed path, and the
link group holds exactly the corresponding link unit. -/
theorem pdf_scenario_manual :
    strEndsWith (artifactDerived scenarioSconf scenarioConf manualEntry).processed
      "manual-v1.tex" = true ∧
    strEndsWith (artifactDerived scenarioSconf scenarioConf manualEntry).deployed
      "manual-v1-release.pdf" = true ∧
    strEndsWith (artifactDerived scenarioSconf scenarioConf manualEntry).link
      "manual-v1.pdf" = true ∧
    (artifactDerived scenarioSconf scenarioConf manualEntry).link ≠
      (artifactDerived scenarioSconf scenarioConf manualEntry).deployed ∧
    (pdf_tasks scenarioSconf scenarioConf (fun _ => true)).link =
      [{ dependency := (artifactDerived scenarioSconf scenarioConf manualEntry).deployed,
         target := (artifactDerived scenarioSconf scenarioConf manualEntry).link,
         args := ((artifactDerived scenarioSconf scenarioConf manualEntry).deploy_fn,
                  (artifactDerived scenarioSconf scenarioConf manualEntry).link),
         forArtifact := manualEntry }] := by
  decide

/-- Claim C8: an artifact rejected by the edition filter contributes no
node to any of the four stage groups. -/
theorem pdf_filtered_no_nodes (sconf : Sconf) (conf : Conf) (check : PdfEntry → Bool)
    (B : PdfEntry) (hB : check B = false) :
    (pdf_tasks sconf conf check).process.countP
      (fun u => u.forArtifact == some B) = 0 ∧
    (pdf_tasks sconf conf check).render.countP
      (fun u => u.forArtifact == B) = 0 ∧
    (pdf_tasks sconf conf check).migrate.length = 0 ∧
    (pdf_tasks sconf conf check).link.countP
      (fun u => u.forArtifact == B) = 0 := by
  cases hp : conf.pdfs with
  | none => refine ⟨?_, ?_, ?_, ?_⟩ <;> simp [pdf_tasks, hp]
  | some pdfs =>
    have hnotB : ∀ i ∈ pdfs.filter (fun i => check i), ¬ i = B := by
      intro i hi heq
      subst heq
      have hc := (List.mem_filter.mp hi).2
      rw [hB] at hc
      exact Bool.false_ne_true hc
    refine ⟨?_, ?_, ?_, ?_⟩
    · rw [List.countP_eq_zero]
      intro u hu
      simp only [pdf_tasks, hp] at hu
      rcases List.mem_append.mp hu with h1 | h2
      · by_cases hoff : hasOffset sconf = true
        · rw [if_pos hoff] at h1
          simp only [List.mem_singleton] at h1
          subst h1
          simp [styProcessUnit]
        · rw [if_neg hoff] at h1
          simp at h1
      · obtain ⟨i, hi, rfl⟩ := List.mem_map.mp h2
        have hne := hnotB i hi
        simp [artifactProcessUnit, hne]
    · rw [List.countP_eq_zero]
      intro u hu
      simp only [pdf_tasks, hp] at hu
      obtain ⟨i, hi, rfl⟩ := List.mem_map.mp hu
      have hne := hnotB i hi
      simp [artifactRenderUnit, hne]
    · simp [pdf_tasks, hp]
    · rw [List.countP_eq_zero]
      intro u hu
      simp only [pdf_tasks, hp] at hu
      obtain ⟨i, hi, hui⟩ := List.mem_flatMap.mp hu
      have hf := (artifactLinkUnits_mem conf _ _ i u hui).1
      have hne := hnotB i hi
      simp [hf, hne]

/-- Witness for C8: with a filter that rejects everything, no unit in
the process or link groups is tagged with the scenario artifact. -/
theorem pdf_filtered_no_nodes_witness :
    (pdf_tasks scenarioSconf scenarioConf (fun _ => false)).process.countP
      (fun u => u.forArtifact == some manualEntry) = 0 ∧
    (pdf_tasks scenarioSconf scenarioConf (fun _ => false)).link.countP
      (fun u => u.forArtifact == manualEntry) = 0 := by
  have h := pdf_filtered_no_nodes scenarioSconf scenarioConf (fun _ => false)
    manualEntry rfl
  exact ⟨h.1, h.2.2.2⟩

/-- Claim C9: with the offset tag present the output format is dvi and
a single one-off transform unit for the shared sphinx.sty resource is
inserted at the front of the transform group, rewriting the file in
place with the graphicx package-option removal; without the tag the
output format is pdf and no such unit exists. -/
theorem pdf_offset_transform (sconf : Sconf) (conf : Conf) (check : PdfEntry → Bool)
    (pdfs : List PdfEntry) (hpdfs : conf.pdfs = some pdfs) :
    (hasOffset sconf = true →
      (pdf_tasks sconf conf check).process.head? =
        some (styProcessUnit (latexDir sconf conf)) ∧
      (pdf_tasks sconf conf check).process.countP
        (fun u => u.forArtifact == (none : Option PdfEntry)) = 1 ∧
      (styProcessUnit (latexDir sconf conf)).fn =
        (styProcessUnit (latexDir sconf conf)).output_fn ∧
      (styProcessUnit (latexDir sconf conf)).fn =
        osPathJoin (latexDir sconf conf) "sphinx.sty" ∧
      (styProcessUnit (latexDir sconf conf)).regexes =
        [("\\\\usepackage\\[pdftex\\]\\\x7bgraphicx\\\x7d",
          "\\usepackage\x7bgraphicx\x7d")] ∧
      (∀ u ∈ (pdf_tasks sconf conf check).render, u.args.2.2.2 = "dvi")) ∧
    (hasOffset sconf = false →
      (pdf_tasks sconf conf check).process.countP
        (fun u => u.forArtifact == (none : Option PdfEntry)) = 0 ∧
      (∀ u ∈ (pdf_tasks sconf conf check).render, u.args.2.2.2 = "pdf")) := by
  constructor
  · intro hoff
    have hproc : (pdf_tasks sconf conf check).process =
        styProcessUnit (latexDir sconf conf) ::
          (pdfs.filter (fun i => check i)).map
            (artifactProcessUnit conf (latexDir sconf conf) (deployPath conf)) := by
      simp [pdf_tasks, hpdfs, hoff]
    have hrend : (pdf_tasks sconf conf check).render =
        (pdfs.filter (fun i => check i)).map
          (artifactRenderUnit conf (latexDir sconf conf) (deployPath conf) "dvi") := by
      simp [pdf_tasks, hpdfs, hoff]
    refine ⟨?_, ?_, rfl, rfl, rfl, ?_⟩
    · rw [hproc]
      rfl
    · rw [hproc, List.countP_cons]
      have h0 : ((pdfs.filter (fun i => check i)).map
          (artifactProcessUnit conf (latexDir sconf conf) (deployPath conf))).countP
            (fun u => u.forArtifact == (none : Option PdfEntry)) = 0 := by
        rw [List.countP_eq_zero]
        intro u hu
        obtain ⟨i, _, rfl⟩ := List.mem_map.mp hu
        simp [artifactProcessUnit]
      rw [h0]
      simp [styProcessUnit]
    · intro u hu
      rw [hrend] at hu
      obtain ⟨i, _, rfl⟩ := List.mem_map.mp hu
      rfl
  · intro hoff
    have hproc : (pdf_tasks sconf conf check).process =
        (pdfs.filter (fun i => check i)).map
          (artifactProcessUnit conf (latexDir sconf conf) (deployPath conf)) := by
      simp [pdf_tasks, hpdfs, hoff]
    have hrend : (pdf_tasks sconf conf check).render =
        (pdfs.filter (fun i => check i)).map
          (artifactRenderUnit conf (latexDir sconf conf) (deployPath conf) "pdf") := by
      simp [pdf_tasks, hpdfs, hoff]
    constructor
    · rw [hproc, List.countP_eq_zero]
      intro u hu
      obtain ⟨i, _, rfl⟩ := List.mem_map.mp hu
      simp [artifactProcessUnit]
    · intro u hu
      rw [hrend] at hu
      obtain ⟨i, _, rfl⟩ := List.mem_map.mp hu
      rfl

/-- Witness for C9: with the offset sconf the sty transform unit heads
the transform group; with the plain sconf no none-tagged unit exists. -/
theorem pdf_offset_transform_witness :
    (pdf_tasks offsetSconf scenarioConf (fun _ => true)).process.head? =
      some (styProcessUnit (latexDir offsetSconf scenarioConf)) ∧
    (pdf_tasks scenarioSconf scenarioConf (fun _ => true)).process.countP
      (fun u => u.forArtifact == (none : Option PdfEntry)) = 0 := by
  have h1 := pdf_offset_transform offsetSconf scenarioConf (fun _ => true) [manualEntry] rfl
  have h2 := pdf_offset_transform scenarioSconf scenarioConf (fun _ => true) [manualEntry] rfl
  exact ⟨(h1.1 rfl).1, (h2.2 rfl).1⟩

end Giza
